import Mathlib

/-!
Shallow embedding of the route validation and display logic of
`route_to_art/main.py`, together with a spec model of the haversine
distance of the route data model (whose source file is not part of this
repository snapshot).

Points carry rational coordinates (Python floats are embedded as exact
rationals) and integer timestamps (Python datetimes are totally ordered and
always truthy, so an embedded timestamp is present exactly when the Python
value is not None).
-/

namespace RouteToArt

/-- A single recorded location sample: latitude, longitude, optional
elevation, optional timestamp. -/
structure GeoPoint where
  latitude : ℚ
  longitude : ℚ
  elevation : Option ℚ := none
  timestamp : Option ℤ := none
  deriving DecidableEq, Repr

/-- An ordered run of recorded points. -/
structure Segment where
  points : List GeoPoint
  deriving DecidableEq, Repr

/-- A named collection of segments. -/
structure Route where
  name : Option String := none
  segments : List Segment
  deriving DecidableEq, Repr

/-! ### Finding messages (the f-strings of the validators) -/
def emptyRouteMsg : String := "Route has no segments"

def noPointsMsg (i : ℕ) : String := s!"Segment {i+1} has no points"

def singlePointMsg (i : ℕ) : String :=
  s!"Segment {i+1} has only one point - no route data"

def tooManyPointsMsg (i n : ℕ) : String :=
  s!"Segment {i+1} has {n} points, which may cause performance issues"

def extremeLatitudeMsg (i j : ℕ) (lat : ℚ) : String :=
  s!"Point {j+1} in segment {i+1} has extreme latitude ({lat}) which may cause issues with map projections"

def inconsistentTsMsg (i : ℕ) : String :=
  s!"Segment {i+1} has inconsistent timestamps (some points missing timestamp data)"

def outOfOrderTsMsg (i : ℕ) : String :=
  s!"Segment {i+1} has out-of-order timestamps"

def duplicateTsMsg (i : ℕ) : String :=
  s!"Segment {i+1} has duplicate timestamps"

/-! ### Loop skeletons

A Python `for i, x in enumerate(xs)` loop that appends findings to a shared
`issues` list is embedded as an index-carrying structural recursion that
threads the accumulated list. -/
/-- Index-carrying fold threading an accumulated findings list: the shape of
`for i, x in enumerate(xs): issues = body(i, x, issues)`. -/
def goIdx {α : Type} (f : ℕ → α → List String → List String) :
    ℕ → List α → List String → List String
  | _, [], issues => issues
  | i, x :: rest, issues => goIdx f (i+1) rest (f i x issues)

/-! ### validate_coordinates -/
/-- Body of the inner loop of `validate_coordinates`: flag a point whose
latitude has absolute value strictly greater than 85 degrees. -/
def coordPointIssue (i j : ℕ) (point : GeoPoint) (issues : List String) :
    List String :=
  if 85 < |point.latitude| then issues ++ [extremeLatitudeMsg i j point.latitude]
  else issues

/-- Body of the outer loop of `validate_coordinates`. -/
def coordSegIssues (i : ℕ) (segment : Segment) (issues : List String) :
    List String :=
  goIdx (coordPointIssue i) 0 segment.points issues

/-- Translation of `validate_coordinates` from `main.py`. -/
def validate_coordinates (route : Route) : List String :=
  goIdx coordSegIssues 0 route.segments []

/-! ### validate_segments -/
/-- Body of the segment loop of `validate_segments`.  An empty segment is
flagged and the remaining checks are skipped (the `continue`). -/
def segIssues (i : ℕ) (segment : Segment) (issues : List String) :
    List String :=
  if segment.points = [] then issues ++ [noPointsMsg i]
  else
    let issues := if segment.points.length < 2 then issues ++ [singlePointMsg i] else issues
    if 10000 < segment.points.length then
      issues ++ [tooManyPointsMsg i segment.points.length]
    else issues

/-- Translation of `validate_segments` from `main.py`: the empty-route check
returns early with a single finding. -/
def validate_segments (route : Route) : List String :=
  if route.segments = [] then [emptyRouteMsg]
  else goIdx segIssues 0 route.segments []

/-! ### validate_timestamps -/
/-- One step of the out-of-order scan: the pair check
`curr and prev and curr < prev` on two adjacent points (`prev` first). -/
def tsOutOfOrderPair (prev curr : GeoPoint) : Bool :=
  match curr.timestamp, prev.timestamp with
  | some c, some p => decide (c < p)
  | _, _ => false

/-- The loop `for j in range(1, len(points))` testing each adjacent pair of
points for a strictly decreasing timestamp step. -/
def tsOutOfOrder : List GeoPoint → Bool
  | p :: q :: rest => tsOutOfOrderPair p q || tsOutOfOrder (q :: rest)
  | _ => false

/-- The comprehension `[p.timestamp for p in points if p.timestamp]`. -/
def tsList (points : List GeoPoint) : List ℤ :=
  points.filterMap fun p => p.timestamp

/-- Body of the segment loop of `validate_timestamps`. -/
def segTsIssues (i : ℕ) (segment : Segment) (issues : List String) :
    List String :=
  let has_timestamps := segment.points.any fun p => p.timestamp.isSome
  if !has_timestamps then issues
  else
    let missing := segment.points.any fun p => p.timestamp.isNone
    let issues := if missing then issues ++ [inconsistentTsMsg i] else issues
    let issues := if tsOutOfOrder segment.points then issues ++ [outOfOrderTsMsg i] else issues
    let timestamps := tsList segment.points
    if timestamps.dedup.length < timestamps.length then
      issues ++ [duplicateTsMsg i]
    else issues

/-- Translation of `validate_timestamps` from `main.py`. -/
def validate_timestamps (route : Route) : List String :=
  goIdx segTsIssues 0 route.segments []

/-! ### C1: validate_timestamps -/
/-- Some adjacent pair of points, both carrying timestamps, has a strictly
smaller timestamp on the later point. -/
def HasAdjOutOfOrder (points : List GeoPoint) : Prop :=
  ∃ j prev curr, points[j]? = some prev ∧ points[j+1]? = some curr ∧
    ∃ p c, prev.timestamp = some p ∧ curr.timestamp = some c ∧ c < p

/-- A two-point segment whose timestamps decrease. -/
def segOOO : Segment :=
  { points := [ { latitude := 1, longitude := 2, timestamp := some 5 },
                { latitude := 1, longitude := 2, timestamp := some 3 } ] }

/-! ### C4: a fully valid route yields three empty lists -/
/-- Within a segment, timestamps are either absent everywhere or present on
every point and strictly increasing (hence pairwise distinct). -/
def segTsValid (s : Segment) : Prop :=
  (∀ p ∈ s.points, p.timestamp = none) ∨
    ((∀ p ∈ s.points, p.timestamp.isSome = true) ∧
      (tsList s.points).Pairwise (· < ·))

/-- A fully valid route: at least one segment, every segment with 2 to 10000
points, all latitudes within 85 degrees of the equator, and consistent
strictly increasing timestamps. -/
def routeValid (route : Route) : Prop :=
  route.segments ≠ [] ∧
    ∀ s ∈ route.segments,
      (2 ≤ s.points.length ∧ s.points.length ≤ 10000) ∧
      (∀ p ∈ s.points, |p.latitude| ≤ 85) ∧ segTsValid s

/-! ### C5: the validators signal no exception

The same code is embedded a second time in an exception monad: every
operation of the source that could in principle fail (the list indexing
`points[j]` and `points[j-1]` of the out-of-order scan) goes through a
checked access that returns an error value out of range.  The theorem shows
every run returns `ok` of the plain result. -/
/-- Exception-monad version of the loop skeleton. -/
def goIdxExc {α : Type}
    (f : ℕ → α → List String → Except String (List String)) :
    ℕ → List α → List String → Except String (List String)
  | _, [], issues => Except.ok issues
  | i, x :: rest, issues =>
    match f i x issues with
    | Except.error e => Except.error e
    | Except.ok issues => goIdxExc f (i+1) rest issues

def coordPointIssueExc (i j : ℕ) (point : GeoPoint) (issues : List String) :
    Except String (List String) :=
  Except.ok (if 85 < |point.latitude| then
      issues ++ [extremeLatitudeMsg i j point.latitude]
    else issues)

def coordSegIssuesExc (i : ℕ) (segment : Segment) (issues : List String) :
    Except String (List String) :=
  goIdxExc (coordPointIssueExc i) 0 segment.points issues

def validate_coordinates_exc (route : Route) : Except String (List String) :=
  goIdxExc coordSegIssuesExc 0 route.segments []

def segIssuesExc (i : ℕ) (segment : Segment) (issues : List String) :
    Except String (List String) :=
  if segment.points = [] then Except.ok (issues ++ [noPointsMsg i])
  else
    let issues := if segment.points.length < 2 then issues ++ [singlePointMsg i] else issues
    Except.ok (if 10000 < segment.points.length then
        issues ++ [tooManyPointsMsg i segment.points.length]
      else issues)

def validate_segments_exc (route : Route) : Except String (List String) :=
  if route.segments = [] then Except.ok [emptyRouteMsg]
  else goIdxExc segIssuesExc 0 route.segments []

/-- Checked version of the accesses `points[j]` and `points[j-1]`. -/
def tsPairAtExc (points : List GeoPoint) (j : ℕ) : Except String Bool :=
  match points[j]?, points[j-1]? with
  | some curr, some prev => Except.ok (tsOutOfOrderPair prev curr)
  | _, _ => Except.error ("IndexError: list index out of range")

/-- Unchecked counterpart of `tsPairAtExc`. -/
def tsPairAt (points : List GeoPoint) (j : ℕ) : Bool :=
  match points[j]?, points[j-1]? with
  | some curr, some prev => tsOutOfOrderPair prev curr
  | _, _ => false

/-- The `for j in range(1, len(points))` loop with checked accesses. -/
def tsScanExc (points : List GeoPoint) : List ℕ → Bool → Except String Bool
  | [], flag => Except.ok flag
  | j :: rest, flag =>
    match tsPairAtExc points j with
    | Except.error e => Except.error e
    | Except.ok b => tsScanExc points rest (flag || b)

def tsOutOfOrderExc (points : List GeoPoint) : Except String Bool :=
  tsScanExc points (List.range' 1 (points.length - 1)) false

def segTsIssuesExc (i : ℕ) (segment : Segment) (issues : List String) :
    Except String (List String) :=
  let has_timestamps := segment.points.any fun p => p.timestamp.isSome
  if !has_timestamps then Except.ok issues
  else
    let missing := segment.points.any fun p => p.timestamp.isNone
    let issues := if missing then issues ++ [inconsistentTsMsg i] else issues
    match tsOutOfOrderExc segment.points with
    | Except.error e => Except.error e
    | Except.ok timestamp_issues =>
      let issues := if timestamp_issues then issues ++ [outOfOrderTsMsg i] else issues
      let timestamps := tsList segment.points
      Except.ok (if timestamps.dedup.length < timestamps.length then
          issues ++ [duplicateTsMsg i]
        else issues)

def validate_timestamps_exc (route : Route) : Except String (List String) :=
  goIdxExc segTsIssuesExc 0 route.segments []

/-! ### C6: the validators leave the route unchanged

The source functions only read the route and append to their local `issues`
list.  Embedding them with explicit state passing (threading the route value
through every loop iteration) shows the final route is the input route. -/
/-- State-passing version of the loop skeleton: each iteration returns the
route component untouched because the corresponding source statements only
append to `issues`. -/
def goIdxSt {α : Type} (f : ℕ → α → List String → List String) :
    ℕ → List α → Route × List String → Route × List String
  | _, [], st => st
  | i, x :: rest, st => goIdxSt f (i+1) rest (st.1, f i x st.2)

def validate_segments_st (route : Route) : Route × List String :=
  if route.segments = [] then (route, [emptyRouteMsg])
  else goIdxSt segIssues 0 route.segments (route, [])

def validate_coordinates_st (route : Route) : Route × List String :=
  goIdxSt coordSegIssues 0 route.segments (route, [])

def validate_timestamps_st (route : Route) : Route × List String :=
  goIdxSt segTsIssues 0 route.segments (route, [])

/-! ### C7: optional marker and overlay failures in the convert command

Model of the rendering block of `convert`: figure creation and route
rendering are wrapped in an outer handler that re-signals a rendering
error, while the marker and overlay steps each sit in their own inner
handler that records a warning and continues.  Export runs afterwards on
the ok path. -/
def renderPhase (createFig renderRoute addMarkers addOverlay : Except String Unit)
    (markers overlay : Bool) : Except String (List String) :=
  match createFig with
  | Except.error e => Except.error (s!"Failed to render route: {e}")
  | Except.ok _ =>
  match renderRoute with
  | Except.error e => Except.error (s!"Failed to render route: {e}")
  | Except.ok _ =>
    let warnings := if markers then
        (match addMarkers with
          | Except.error e => [s!"Error adding markers: {e}"]
          | Except.ok _ => [])
      else []
    let warnings := warnings ++ (if overlay then
        (match addOverlay with
          | Except.error e => [s!"Failed to add overlay: {e}"]
          | Except.ok _ => [])
      else [])
    Except.ok warnings

def convertModel (createFig renderRoute addMarkers addOverlay : Except String Unit)
    (markers overlay : Bool) (exportStep : Except String (List String)) :
    Except String (List String × List String) :=
  match renderPhase createFig renderRoute addMarkers addOverlay markers overlay with
  | Except.error e => Except.error e
  | Except.ok warnings =>
    match exportStep with
    | Except.error e => Except.error e
    | Except.ok files => Except.ok (warnings, files)

/-! ### C10: format_duration -/
/-- A Python timedelta value as normalized components. -/
structure Timedelta where
  days : ℤ
  seconds : ℕ
  microseconds : ℕ
  deriving DecidableEq, Repr

/-- Python truthiness of a timedelta: false exactly when all components are
zero. -/
def Timedelta.isZero (d : Timedelta) : Bool :=
  d.days == 0 && d.seconds == 0 && d.microseconds == 0

/-- Translation of `format_duration` from `main.py`.  `if not duration`
covers both the missing duration and the falsy zero-length duration. -/
def format_duration (duration : Option Timedelta) : String :=
  match duration with
  | none => "Unknown"
  | some d =>
    if d.isZero then "Unknown"
    else
      let days := d.days
      let hours := d.seconds / 3600
      let remainder := d.seconds % 3600
      let minutes := remainder / 60
      let seconds := remainder % 60
      let parts : List String :=
        (if days ≠ 0 then [s!"{days} day" ++ (if days ≠ 1 then "s" else "")] else [])
        ++ (if hours ≠ 0 then [s!"{hours} hour" ++ (if hours ≠ 1 then "s" else "")] else [])
        ++ (if minutes ≠ 0 then [s!"{minutes} minute" ++ (if minutes ≠ 1 then "s" else "")] else [])
        ++ (if seconds ≠ 0 ∧ days = 0 ∧ hours = 0 then
              [s!"{seconds} second" ++ (if seconds ≠ 1 then "s" else "")] else [])
      String.intercalate (", ") parts

/-- A fully valid two-point route with increasing timestamps. -/
def routeGood : Route :=
  { name := some "morning run",
    segments := [ { points :=
      [ { latitude := 10, longitude := 20, elevation := some 100,
          timestamp := some 1 },
        { latitude := 11, longitude := 21, elevation := some 110,
          timestamp := some 2 } ] } ] }

/-! ### C8: haversine distance (spec model) -/
/-- Modelled from the spec: degrees to radians, used by the haversine
formula.  The repository snapshot does not contain the data-model source
file defining `distance`. -/
noncomputable def deg2rad (d : ℚ) : ℝ := (d : ℝ) * Real.pi / 180

/-- Modelled from the spec: the haversine intermediate value
sin²(Δφ/2) + cos φ₁ · cos φ₂ · sin²(Δλ/2). -/
noncomputable def haversine_h (a b : GeoPoint) : ℝ :=
  Real.sin ((deg2rad b.latitude - deg2rad a.latitude) / 2) ^ 2 +
    Real.cos (deg2rad a.latitude) * Real.cos (deg2rad b.latitude) *
      Real.sin ((deg2rad b.longitude - deg2rad a.longitude) / 2) ^ 2

/-- Modelled from the spec: great-circle distance in meters by the
haversine formula on a spherical Earth of mean radius 6371000 m. -/
noncomputable def distance (a b : GeoPoint) : ℝ :=
  2 * 6371000 * Real.arcsin (Real.sqrt (haversine_h a b))

/-- A GeoPoint within the construction-time latitude and longitude
ranges. -/
def GeoPoint.valid (p : GeoPoint) : Prop :=
  -90 ≤ p.latitude ∧ p.latitude ≤ 90 ∧
    -180 ≤ p.longitude ∧ p.longitude ≤ 180

/-- The equator origin point. -/
def pointA : GeoPoint := { latitude := 0, longitude := 0 }

/-- One degree of longitude east of the origin. -/
def pointB : GeoPoint := { latitude := 0, longitude := 1 }

/-! ## Theorems -/

/-! ### Generic lemmas about the loop skeleton -/
section GoIdx

variable {α : Type} {f : ℕ → α → List String → List String}

theorem goIdx_acc (H : ∀ i x issues, f i x issues = issues ++ f i x [])
    (l : List α) : ∀ (i : ℕ) (issues : List String),
    goIdx f i l issues = issues ++ goIdx f i l [] := by
  induction l with
  | nil => intro i issues; simp [goIdx]
  | cons x rest ih =>
    intro i issues
    show goIdx f (i+1) rest (f i x issues) = issues ++ goIdx f (i+1) rest (f i x [])
    rw [ih (i+1) (f i x issues), ih (i+1) (f i x []), H i x issues,
      List.append_assoc]

theorem goIdx_mem (H : ∀ i x issues, f i x issues = issues ++ f i x [])
    (l : List α) : ∀ (i k : ℕ) (a : α) (x : String),
    l[k]? = some a → x ∈ f (i + k) a [] → x ∈ goIdx f i l [] := by
  induction l with
  | nil => intro i k a x hk; simp at hk
  | cons s rest ih =>
    intro i k a x hk hx
    show x ∈ goIdx f (i+1) rest (f i s [])
    rw [goIdx_acc H rest (i+1) (f i s [])]
    match k, hk with
    | 0, hk =>
      simp only [List.getElem?_cons_zero, Option.some.injEq] at hk
      subst hk
      exact List.mem_append_left _ (by simpa using hx)
    | Nat.succ k, hk =>
      simp only [List.getElem?_cons_succ] at hk
      refine List.mem_append_right _ (ih (i+1) k a x hk ?_)
      have : i + 1 + k = i + (k + 1) := by omega
      rw [this]; exact hx

theorem goIdx_empty (l : List α) :
    ∀ i : ℕ, (∀ x ∈ l, ∀ j, f j x [] = []) → goIdx f i l [] = [] := by
  induction l with
  | nil => intro i _; rfl
  | cons s rest ih =>
    intro i h
    show goIdx f (i+1) rest (f i s []) = []
    rw [h s (List.mem_cons_self s rest) i]
    exact ih (i+1) fun x hx j => h x (List.mem_cons_of_mem s hx) j

theorem goIdx_flatMap (H : ∀ i x issues, f i x issues = issues ++ f i x [])
    (l : List α) : ∀ i : ℕ,
    goIdx f i l [] = (List.enumFrom i l).flatMap fun p => f p.1 p.2 [] := by
  induction l with
  | nil => intro i; rfl
  | cons s rest ih =>
    intro i
    show goIdx f (i+1) rest (f i s []) = _
    rw [goIdx_acc H rest (i+1) (f i s []), ih (i+1), List.enumFrom_cons,
      List.flatMap_cons]

end GoIdx

/-- Turning a flat-mapped conditional singleton into a filter-then-map. -/
theorem flatMap_ite_singleton {α β : Type} (l : List α) (p : α → Prop)
    [DecidablePred p] (g : α → β) :
    (l.flatMap fun x => if p x then [g x] else [])
      = (l.filter fun x => decide (p x)).map g := by
  induction l with
  | nil => rfl
  | cons a l ih =>
    by_cases h : p a <;>
      simp [List.flatMap_cons, List.filter_cons, h, ih]

/-! ### Accumulator laws of the three loop bodies -/
theorem coordPointIssue_acc (i j : ℕ) (p : GeoPoint) (issues : List String) :
    coordPointIssue i j p issues = issues ++ coordPointIssue i j p [] := by
  unfold coordPointIssue; split_ifs <;> simp

theorem coordSegIssues_acc (i : ℕ) (s : Segment) (issues : List String) :
    coordSegIssues i s issues = issues ++ coordSegIssues i s [] := by
  unfold coordSegIssues
  exact goIdx_acc (coordPointIssue_acc i) s.points 0 issues

theorem segIssues_acc (i : ℕ) (s : Segment) (issues : List String) :
    segIssues i s issues = issues ++ segIssues i s [] := by
  unfold segIssues; split_ifs <;> simp

theorem segTsIssues_acc (i : ℕ) (s : Segment) (issues : List String) :
    segTsIssues i s issues = issues ++ segTsIssues i s [] := by
  unfold segTsIssues
  dsimp only
  split_ifs <;> simp [List.append_assoc]

/-- The per-segment contribution of `validate_timestamps`, written as the
concatenation of its three conditional findings. -/
theorem segTsIssues_eq (i : ℕ) (s : Segment) :
    segTsIssues i s []
      = if (s.points.any fun p => p.timestamp.isSome) then
          ((if (s.points.any fun p => p.timestamp.isNone) then [inconsistentTsMsg i] else [])
            ++ (if tsOutOfOrder s.points then [outOfOrderTsMsg i] else [])
            ++ (if (tsList s.points).dedup.length < (tsList s.points).length then
                  [duplicateTsMsg i] else []))
        else [] := by
  unfold segTsIssues
  dsimp only
  split_ifs with h1 h2 h3 h4 <;> first
    | rfl
    | simp_all [List.append_assoc]

/-! ### C9 and C3: validate_segments -/
/-- C9: a route with zero segments yields exactly the one empty-route
finding, and no per-segment findings. -/
theorem empty_route_single_finding (route : Route)
    (h : route.segments = []) :
    validate_segments route = [emptyRouteMsg] := by
  unfold validate_segments
  rw [if_pos h]

/-- Witness for C9 at a concrete empty route. -/
theorem empty_route_single_finding_witness :
    validate_segments { name := none, segments := [] } = [emptyRouteMsg] :=
  empty_route_single_finding { name := none, segments := [] } rfl

theorem segIssues_of_empty (i : ℕ) (s : Segment) (h : s.points = []) :
    segIssues i s [] = [noPointsMsg i] := by
  unfold segIssues; rw [if_pos h]; simp

theorem segIssues_of_single (i : ℕ) (s : Segment) (h : s.points.length = 1) :
    segIssues i s [] = [singlePointMsg i] := by
  have hne : ¬ s.points = [] := by intro he; rw [he] at h; simp at h
  have hlt : s.points.length < 2 := by omega
  have hbig : ¬ 10000 < s.points.length := by omega
  unfold segIssues
  rw [if_neg hne, if_pos hlt, if_neg hbig]
  simp

theorem segIssues_of_large (i : ℕ) (s : Segment)
    (h : 10000 < s.points.length) :
    segIssues i s [] = [tooManyPointsMsg i s.points.length] := by
  have hne : ¬ s.points = [] := by intro he; rw [he] at h; simp at h
  have hlt : ¬ s.points.length < 2 := by omega
  unfold segIssues
  rw [if_neg hne, if_neg hlt, if_pos h]
  simp

theorem segIssues_of_ok (i : ℕ) (s : Segment)
    (h2 : 2 ≤ s.points.length) (hm : s.points.length ≤ 10000) :
    segIssues i s [] = [] := by
  have hne : ¬ s.points = [] := by intro he; rw [he] at h2; simp at h2
  have hlt : ¬ s.points.length < 2 := by omega
  have hbig : ¬ 10000 < s.points.length := by omega
  unfold segIssues
  rw [if_neg hne, if_neg hlt, if_neg hbig]

theorem validate_segments_of_ok (route : Route) (hne : route.segments ≠ [])
    (hok : ∀ seg ∈ route.segments,
      2 ≤ seg.points.length ∧ seg.points.length ≤ 10000) :
    validate_segments route = [] := by
  unfold validate_segments
  rw [if_neg hne]
  exact goIdx_empty route.segments 0 fun s hs j =>
    segIssues_of_ok j s (hok s hs).1 (hok s hs).2

/-- C3: `validate_segments` flags the empty route, every empty segment, every
segment with fewer than two points and every segment with more than 10000
points, and is empty on a route whose segments all have 2 to 10000 points. -/
theorem validate_segments_findings (route : Route) :
    (route.segments = [] → emptyRouteMsg ∈ validate_segments route) ∧
    (∀ i seg, route.segments[i]? = some seg →
      (seg.points = [] → noPointsMsg i ∈ validate_segments route) ∧
      (seg.points.length < 2 →
        noPointsMsg i ∈ validate_segments route ∨
          singlePointMsg i ∈ validate_segments route) ∧
      (10000 < seg.points.length →
        tooManyPointsMsg i seg.points.length ∈ validate_segments route)) ∧
    ((route.segments ≠ [] ∧
        ∀ seg ∈ route.segments,
          2 ≤ seg.points.length ∧ seg.points.length ≤ 10000) →
      validate_segments route = []) := by
  refine ⟨?_, ?_, ?_⟩
  · intro h; rw [empty_route_single_finding route h]; simp
  · intro i seg hseg
    have hne : route.segments ≠ [] := by
      intro h; rw [h] at hseg; simp at hseg
    have hval : validate_segments route = goIdx segIssues 0 route.segments [] := by
      unfold validate_segments; rw [if_neg hne]
    have hmem : ∀ x : String, x ∈ segIssues i seg [] →
        x ∈ validate_segments route := by
      intro x hx
      rw [hval]
      exact goIdx_mem segIssues_acc route.segments 0 i seg x hseg
        (by simpa using hx)
    refine ⟨?_, ?_, ?_⟩
    · intro h
      exact hmem _ (by rw [segIssues_of_empty i seg h]; simp)
    · intro h
      have h01 : seg.points.length = 0 ∨ seg.points.length = 1 := by omega
      rcases h01 with h0 | h1
      · exact Or.inl (hmem _ (by
          rw [segIssues_of_empty i seg (List.length_eq_zero.mp h0)]; simp))
      · exact Or.inr (hmem _ (by rw [segIssues_of_single i seg h1]; simp))
    · intro h
      exact hmem _ (by rw [segIssues_of_large i seg h]; simp)
  · rintro ⟨hne, hok⟩
    exact validate_segments_of_ok route hne hok

/-- Witness for C3 at a route with an empty segment, a one-point segment and
a healthy two-point segment. -/
theorem validate_segments_findings_witness :
    noPointsMsg 0 ∈ validate_segments
      { segments := [ { points := [] },
                      { points := [ { latitude := 1, longitude := 2 } ] },
                      { points := [ { latitude := 1, longitude := 2 },
                                    { latitude := 3, longitude := 4 } ] } ] } ∧
    validate_segments
      { segments := [ { points := [ { latitude := 1, longitude := 2 },
                                    { latitude := 3, longitude := 4 } ] } ] }
      = [] := by
  constructor
  · exact ((validate_segments_findings _).2.1 0 { points := [] }
      (by rfl)).1 rfl
  · exact (validate_segments_findings _).2.2
      ⟨by simp, by intro seg hseg; simp at hseg; rw [hseg]; simp⟩

/-! ### C2: validate_coordinates -/
theorem coordPointIssue_nil (i j : ℕ) (p : GeoPoint) :
    coordPointIssue i j p []
      = if 85 < |p.latitude| then [extremeLatitudeMsg i j p.latitude]
        else [] := by
  unfold coordPointIssue; split_ifs <;> simp

theorem validate_coordinates_of_ok (route : Route)
    (h : ∀ s ∈ route.segments, ∀ p ∈ s.points, |p.latitude| ≤ 85) :
    validate_coordinates route = [] := by
  unfold validate_coordinates
  refine goIdx_empty route.segments 0 fun s hs j => ?_
  unfold coordSegIssues
  refine goIdx_empty s.points 0 fun p hp k => ?_
  unfold coordPointIssue
  rw [if_neg (not_lt.mpr (h s hs p hp))]

/-- C2: `validate_coordinates` emits exactly one finding per point with
latitude of absolute value strictly above 85, in segment-then-point order,
and nothing when every latitude is within the bound. -/
theorem validate_coordinates_characterization (route : Route) :
    validate_coordinates route
        = route.segments.enum.flatMap (fun si =>
            (si.2.points.enum.filter fun pj =>
                decide (85 < |pj.2.latitude|)).map
              fun pj => extremeLatitudeMsg si.1 pj.1 pj.2.latitude) ∧
      ((∀ s ∈ route.segments, ∀ p ∈ s.points, |p.latitude| ≤ 85) →
        validate_coordinates route = []) := by
  constructor
  · have hseg : ∀ (i : ℕ) (s : Segment),
        coordSegIssues i s []
          = (s.points.enum.filter fun pj => decide (85 < |pj.2.latitude|)).map
              fun pj => extremeLatitudeMsg i pj.1 pj.2.latitude := by
      intro i s
      unfold coordSegIssues
      rw [goIdx_flatMap (coordPointIssue_acc i) s.points 0]
      have : ∀ q : ℕ × GeoPoint,
          coordPointIssue i q.1 q.2 []
            = if 85 < |q.2.latitude| then
                [extremeLatitudeMsg i q.1 q.2.latitude]
              else [] := fun q => coordPointIssue_nil i q.1 q.2
      simp only [this]
      rw [flatMap_ite_singleton (List.enumFrom 0 s.points)
        (fun q => 85 < |q.2.latitude|)
        (fun q => extremeLatitudeMsg i q.1 q.2.latitude)]
      rfl
    unfold validate_coordinates
    rw [goIdx_flatMap coordSegIssues_acc route.segments 0]
    simp only [hseg]
    rfl
  · exact validate_coordinates_of_ok route

/-- Witness for C2: a route with one extreme-latitude point yields exactly
that finding, and an in-range route yields none. -/
theorem validate_coordinates_characterization_witness :
    validate_coordinates
        { segments := [ { points := [ { latitude := 86, longitude := 0 },
                                      { latitude := 1, longitude := 2 } ] } ] }
      = [extremeLatitudeMsg 0 0 86] ∧
    validate_coordinates
        { segments := [ { points := [ { latitude := 85, longitude := 2 } ] } ] }
      = [] := by
  constructor
  · rw [(validate_coordinates_characterization _).1]; rfl
  · exact (validate_coordinates_characterization _).2
      (by intro s hs p hp; simp at hs; rw [hs] at hp; simp at hp; rw [hp]; simp)

theorem tsOutOfOrderPair_iff (prev curr : GeoPoint) :
    tsOutOfOrderPair prev curr = true ↔
      ∃ p c, prev.timestamp = some p ∧ curr.timestamp = some c ∧ c < p := by
  unfold tsOutOfOrderPair
  rcases hc : curr.timestamp with _ | c <;> rcases hp : prev.timestamp with _ | p <;>
    simp

theorem tsOutOfOrder_iff (points : List GeoPoint) :
    tsOutOfOrder points = true ↔ HasAdjOutOfOrder points := by
  induction points with
  | nil =>
    simp only [tsOutOfOrder, HasAdjOutOfOrder]
    simp
  | cons p rest ih =>
    cases rest with
    | nil =>
      constructor
      · intro h; exact absurd h (by simp [tsOutOfOrder])
      · rintro ⟨j, prev, curr, _, hcurr, _⟩
        rw [List.getElem?_eq_none (by simp)] at hcurr
        exact absurd hcurr (by simp)
    | cons q rest2 =>
      rw [show tsOutOfOrder (p :: q :: rest2)
            = (tsOutOfOrderPair p q || tsOutOfOrder (q :: rest2)) from rfl,
        Bool.or_eq_true, ih, tsOutOfOrderPair_iff]
      constructor
      · rintro (⟨pp, cc, hp, hc, hlt⟩ | ⟨j, prev, curr, h1, h2, h3⟩)
        · exact ⟨0, p, q, rfl, by simp, pp, cc, hp, hc, hlt⟩
        · exact ⟨j+1, prev, curr, by simpa using h1, by simpa using h2, h3⟩
      · rintro ⟨j, prev, curr, h1, h2, h3⟩
        cases j with
        | zero =>
          left
          simp only [Nat.zero_add, List.getElem?_cons_succ,
            List.getElem?_cons_zero, Option.some.injEq] at h1 h2
          subst h1
          subst h2
          exact h3
        | succ j =>
          right
          exact ⟨j, prev, curr, by simpa using h1, by simpa using h2, h3⟩

theorem dedup_length_lt_iff (l : List ℤ) :
    l.dedup.length < l.length ↔ ¬ l.Nodup := by
  constructor
  · intro h hnd
    rw [List.dedup_eq_self.mpr hnd] at h
    exact lt_irrefl _ h
  · intro hnd
    rcases Nat.lt_or_ge l.dedup.length l.length with h | h
    · exact h
    · exfalso
      have heq : l.dedup.length = l.length :=
        le_antisymm l.dedup_sublist.length_le h
      have hd : l.dedup = l := l.dedup_sublist.eq_of_length heq
      exact hnd (hd ▸ l.nodup_dedup)

theorem segTsIssues_mem (i : ℕ) (s : Segment)
    (hts : ∃ p ∈ s.points, p.timestamp.isSome = true) :
    ((∃ p ∈ s.points, p.timestamp = none) →
        inconsistentTsMsg i ∈ segTsIssues i s []) ∧
    (tsOutOfOrder s.points = true → outOfOrderTsMsg i ∈ segTsIssues i s []) ∧
    (¬ (tsList s.points).Nodup → duplicateTsMsg i ∈ segTsIssues i s []) := by
  have hany : (s.points.any fun p => p.timestamp.isSome) = true := by
    rw [List.any_eq_true]; simpa using hts
  rw [segTsIssues_eq, if_pos hany]
  refine ⟨?_, ?_, ?_⟩
  · intro h
    have hmiss : (s.points.any fun p => p.timestamp.isNone) = true := by
      rw [List.any_eq_true]
      obtain ⟨p, hp, hn⟩ := h
      exact ⟨p, hp, by simp [hn]⟩
    rw [if_pos hmiss]; simp
  · intro h; rw [if_pos h]; simp
  · intro h
    rw [if_pos ((dedup_length_lt_iff _).mpr h)]; simp

/-- C1: for a segment carrying timestamps, each of the three timestamp
defects puts the corresponding finding into the result of
`validate_timestamps`; in particular an out-of-order segment makes the
result non-empty. -/
theorem validate_timestamps_findings (route : Route) (i : ℕ) (seg : Segment)
    (hseg : route.segments[i]? = some seg)
    (hts : ∃ p ∈ seg.points, p.timestamp.isSome = true) :
    ((∃ p ∈ seg.points, p.timestamp = none) →
        inconsistentTsMsg i ∈ validate_timestamps route) ∧
    (HasAdjOutOfOrder seg.points →
        outOfOrderTsMsg i ∈ validate_timestamps route) ∧
    (¬ (tsList seg.points).Nodup →
        duplicateTsMsg i ∈ validate_timestamps route) ∧
    (HasAdjOutOfOrder seg.points → validate_timestamps route ≠ []) := by
  have hmem : ∀ x : String, x ∈ segTsIssues i seg [] →
      x ∈ validate_timestamps route := by
    intro x hx
    unfold validate_timestamps
    exact goIdx_mem segTsIssues_acc route.segments 0 i seg x hseg
      (by simpa using hx)
  have h3 := segTsIssues_mem i seg hts
  refine ⟨fun h => hmem _ (h3.1 h),
    fun h => hmem _ (h3.2.1 ((tsOutOfOrder_iff _).mpr h)),
    fun h => hmem _ (h3.2.2 h),
    fun h => List.ne_nil_of_mem (hmem _ (h3.2.1 ((tsOutOfOrder_iff _).mpr h)))⟩

/-- Witness for C1: the decreasing-timestamp segment produces the
out-of-order finding and a non-empty result. -/
theorem validate_timestamps_findings_witness :
    outOfOrderTsMsg 0 ∈ validate_timestamps { segments := [segOOO] } ∧
      validate_timestamps { segments := [segOOO] } ≠ [] := by
  have hts : ∃ p ∈ segOOO.points, p.timestamp.isSome = true :=
    ⟨{ latitude := 1, longitude := 2, timestamp := some 5 }, by simp [segOOO], rfl⟩
  have hadj : HasAdjOutOfOrder segOOO.points :=
    ⟨0, { latitude := 1, longitude := 2, timestamp := some 5 },
      { latitude := 1, longitude := 2, timestamp := some 3 },
      rfl, rfl, 5, 3, rfl, rfl, by decide⟩
  have h := validate_timestamps_findings { segments := [segOOO] } 0 segOOO rfl hts
  exact ⟨h.2.1 hadj, h.2.2.2 hadj⟩

theorem tsOutOfOrder_of_sorted (points : List GeoPoint)
    (hall : ∀ p ∈ points, p.timestamp.isSome = true)
    (hpw : (tsList points).Pairwise (· < ·)) :
    tsOutOfOrder points = false := by
  induction points with
  | nil => rfl
  | cons p rest ih =>
    cases rest with
    | nil => rfl
    | cons q rest2 =>
      obtain ⟨a, ha⟩ := Option.isSome_iff_exists.mp (hall p (by simp))
      obtain ⟨b, hb⟩ := Option.isSome_iff_exists.mp (hall q (by simp))
      have hts : tsList (p :: q :: rest2) = a :: tsList (q :: rest2) := by
        simp [tsList, ha]
      rw [hts] at hpw
      have hpw2 := List.pairwise_cons.mp hpw
      have hab : a < b := hpw2.1 b (by simp [tsList, hb])
      have h1 : tsOutOfOrderPair p q = false := by
        unfold tsOutOfOrderPair
        rw [hb, ha]
        simp only [decide_eq_false_iff_not]
        omega
      have h2 : tsOutOfOrder (q :: rest2) = false :=
        ih (fun x hx => hall x (by simp [hx])) hpw2.2
      show (tsOutOfOrderPair p q || tsOutOfOrder (q :: rest2)) = false
      rw [h1, h2]
      rfl

theorem segTsIssues_of_valid (i : ℕ) (s : Segment) (h : segTsValid s) :
    segTsIssues i s [] = [] := by
  rw [segTsIssues_eq]
  rcases h with hnone | ⟨hall, hpw⟩
  · have hfalse : (s.points.any fun p => p.timestamp.isSome) = false := by
      rw [List.any_eq_false]
      intro p hp
      simp [hnone p hp]
    simp [hfalse]
  · rcases hnil : s.points with _ | ⟨p0, rest⟩
    · simp
    · have hany : (s.points.any fun p => p.timestamp.isSome) = true := by
        rw [List.any_eq_true]
        exact ⟨p0, by rw [hnil]; simp, hall p0 (by rw [hnil]; simp)⟩
      rw [← hnil, if_pos hany]
      have h1 : (s.points.any fun p => p.timestamp.isNone) = false := by
        rw [List.any_eq_false]
        intro p hp
        rcases Option.isSome_iff_exists.mp (hall p hp) with ⟨a, hap⟩
        simp [hap]
      have h2 : tsOutOfOrder s.points = false :=
        tsOutOfOrder_of_sorted s.points hall hpw
      have hnd : (tsList s.points).Nodup :=
        hpw.imp fun h => ne_of_lt h
      have h3 : ¬ (tsList s.points).dedup.length < (tsList s.points).length := by
        rw [dedup_length_lt_iff]
        exact not_not_intro hnd
      simp [h1, h2, h3]

theorem validate_timestamps_of_valid (route : Route)
    (h : ∀ s ∈ route.segments, segTsValid s) :
    validate_timestamps route = [] := by
  unfold validate_timestamps
  exact goIdx_empty route.segments 0 fun s hs j =>
    segTsIssues_of_valid j s (h s hs)

/-- C4: on a fully valid route the three validators each return an empty
list. -/
theorem valid_route_three_empty_lists (route : Route) (h : routeValid route) :
    validate_segments route = [] ∧ validate_coordinates route = [] ∧
      validate_timestamps route = [] := by
  obtain ⟨hne, hs⟩ := h
  exact ⟨validate_segments_of_ok route hne fun s hmem => (hs s hmem).1,
    validate_coordinates_of_ok route fun s hmem => (hs s hmem).2.1,
    validate_timestamps_of_valid route fun s hmem => (hs s hmem).2.2⟩

section GoIdxExc

variable {α : Type} {fE : ℕ → α → List String → Except String (List String)}
  {f : ℕ → α → List String → List String}

theorem goIdxExc_ok
    (H : ∀ i x issues, fE i x issues = Except.ok (f i x issues)) (l : List α) :
    ∀ (i : ℕ) (issues : List String),
      goIdxExc fE i l issues = Except.ok (goIdx f i l issues) := by
  induction l with
  | nil => intro i issues; rfl
  | cons x rest ih =>
    intro i issues
    show (match fE i x issues with
      | Except.error e => Except.error e
      | Except.ok issues => goIdxExc fE (i+1) rest issues) = _
    rw [H i x issues]
    exact ih (i+1) (f i x issues)

end GoIdxExc

theorem tsPairAtExc_ok (points : List GeoPoint) (j : ℕ)
    (hj1 : 1 ≤ j) (hj : j < points.length) :
    tsPairAtExc points j = Except.ok (tsPairAt points j) := by
  unfold tsPairAtExc tsPairAt
  rw [List.getElem?_eq_getElem hj,
    List.getElem?_eq_getElem (show j - 1 < points.length by omega)]

theorem tsScanExc_ok (points : List GeoPoint) :
    ∀ (js : List ℕ) (flag : Bool),
      (∀ j ∈ js, 1 ≤ j ∧ j < points.length) →
      tsScanExc points js flag
        = Except.ok (js.foldl (fun b j => b || tsPairAt points j) flag) := by
  intro js
  induction js with
  | nil => intro flag _; rfl
  | cons j rest ih =>
    intro flag h
    show (match tsPairAtExc points j with
      | Except.error e => Except.error e
      | Except.ok b => tsScanExc points rest (flag || b)) = _
    rw [tsPairAtExc_ok points j (h j (by simp)).1 (h j (by simp)).2]
    exact ih (flag || tsPairAt points j) fun x hx => h x (by simp [hx])

theorem foldl_or_any (f : ℕ → Bool) (l : List ℕ) :
    ∀ b : Bool, l.foldl (fun b j => b || f j) b = (b || l.any f) := by
  induction l with
  | nil => intro b; simp
  | cons a l ih =>
    intro b
    show l.foldl (fun b j => b || f j) (b || f a) = _
    rw [ih (b || f a), List.any_cons, Bool.or_assoc]

theorem any_congr_mem {α : Type} (l : List α) (f g : α → Bool)
    (h : ∀ x ∈ l, f x = g x) : l.any f = l.any g := by
  induction l with
  | nil => rfl
  | cons a l ih =>
    rw [List.any_cons, List.any_cons, h a (by simp),
      ih fun x hx => h x (by simp [hx])]

theorem tsPairAt_shift (p : GeoPoint) (pts : List GeoPoint) (k : ℕ) :
    tsPairAt (p :: pts) (k + 2) = tsPairAt pts (k + 1) := by
  unfold tsPairAt
  have e2 : (p :: pts)[k+2]? = pts[k+1]? := by
    rw [show k + 2 = (k + 1) + 1 from rfl, List.getElem?_cons_succ]
  have e1 : (p :: pts)[k+2-1]? = pts[k+1-1]? := by
    rw [show k + 2 - 1 = k + 1 from rfl, List.getElem?_cons_succ,
      show k + 1 - 1 = k from rfl]
  rw [e2, e1]

theorem range'_any_tsPairAt :
    ∀ points : List GeoPoint,
      ((List.range' 1 (points.length - 1)).any fun j => tsPairAt points j)
        = tsOutOfOrder points := by
  intro points
  induction points with
  | nil => rfl
  | cons p rest ih =>
    cases rest with
    | nil => rfl
    | cons q rest2 =>
      have hlen : (p :: q :: rest2).length - 1 = rest2.length + 1 := by
        simp
      rw [hlen, List.range'_succ, List.any_cons]
      have hhead : tsPairAt (p :: q :: rest2) 1 = tsOutOfOrderPair p q := by
        unfold tsPairAt
        have e2 : (p :: q :: rest2)[1]? = some q := by
          rw [show (1:ℕ) = 0 + 1 from rfl, List.getElem?_cons_succ,
            List.getElem?_cons_zero]
        have e1 : (p :: q :: rest2)[1-1]? = some p := by
          rw [show (1:ℕ) - 1 = 0 from rfl, List.getElem?_cons_zero]
        rw [e2, e1]
      have hshift :
          ((List.range' 2 rest2.length).any fun j => tsPairAt (p :: q :: rest2) j)
            = ((List.range' 1 rest2.length).any fun j => tsPairAt (q :: rest2) j) := by
        rw [show (2 : ℕ) = 1 + 1 from rfl, ← List.map_add_range', List.any_map]
        refine any_congr_mem _ _ _ fun j hj => ?_
        have hj1 : 1 ≤ j := (List.mem_range'_1.mp hj).1
        obtain ⟨k, rfl⟩ : ∃ k, j = k + 1 := ⟨j - 1, by omega⟩
        show tsPairAt (p :: q :: rest2) (1 + (k + 1)) = tsPairAt (q :: rest2) (k + 1)
        rw [show 1 + (k + 1) = k + 2 by omega, tsPairAt_shift]
      rw [hhead, hshift]
      have hlen2 : rest2.length = (q :: rest2).length - 1 := by simp
      rw [hlen2, ih]
      rfl

theorem tsOutOfOrderExc_ok (points : List GeoPoint) :
    tsOutOfOrderExc points = Except.ok (tsOutOfOrder points) := by
  unfold tsOutOfOrderExc
  rw [tsScanExc_ok points (List.range' 1 (points.length - 1)) false ?bounds,
    foldl_or_any, Bool.false_or, range'_any_tsPairAt]
  case bounds =>
    intro j hj
    have h := List.mem_range'_1.mp hj
    constructor
    · exact h.1
    · omega

theorem coordSegIssuesExc_ok (i : ℕ) (s : Segment) (issues : List String) :
    coordSegIssuesExc i s issues = Except.ok (coordSegIssues i s issues) :=
  goIdxExc_ok (fun _ _ _ => rfl) s.points 0 issues

theorem segIssuesExc_ok (i : ℕ) (s : Segment) (issues : List String) :
    segIssuesExc i s issues = Except.ok (segIssues i s issues) := by
  unfold segIssuesExc segIssues
  split_ifs <;> rfl

theorem segTsIssuesExc_ok (i : ℕ) (s : Segment) (issues : List String) :
    segTsIssuesExc i s issues = Except.ok (segTsIssues i s issues) := by
  unfold segTsIssuesExc segTsIssues
  dsimp only
  rw [tsOutOfOrderExc_ok]
  dsimp only
  split_ifs <;> rfl

/-- C5: on every route value, each of the three validators runs to
completion without signalling, returning exactly the plain finding list. -/
theorem validators_never_raise (route : Route) :
    validate_segments_exc route = Except.ok (validate_segments route) ∧
    validate_coordinates_exc route = Except.ok (validate_coordinates route) ∧
    validate_timestamps_exc route = Except.ok (validate_timestamps route) := by
  refine ⟨?_, ?_, ?_⟩
  · unfold validate_segments_exc validate_segments
    split_ifs
    · rfl
    · exact goIdxExc_ok segIssuesExc_ok route.segments 0 []
  · exact goIdxExc_ok coordSegIssuesExc_ok route.segments 0 []
  · exact goIdxExc_ok segTsIssuesExc_ok route.segments 0 []

theorem goIdxSt_eq {α : Type} (f : ℕ → α → List String → List String) :
    ∀ (l : List α) (i : ℕ) (st : Route × List String),
      goIdxSt f i l st = (st.1, goIdx f i l st.2) := by
  intro l
  induction l with
  | nil => intro i st; rfl
  | cons x rest ih =>
    intro i st
    show goIdxSt f (i+1) rest (st.1, f i x st.2) = _
    rw [ih (i+1) (st.1, f i x st.2)]
    rfl

/-- C6: each validator returns the route it was given — name, segments, and
every point — unchanged, together with its finding list. -/
theorem validators_preserve_route (route : Route) :
    validate_segments_st route = (route, validate_segments route) ∧
    validate_coordinates_st route = (route, validate_coordinates route) ∧
    validate_timestamps_st route = (route, validate_timestamps route) := by
  refine ⟨?_, ?_, ?_⟩
  · unfold validate_segments_st validate_segments
    split_ifs
    · rfl
    · rw [goIdxSt_eq]
  · unfold validate_coordinates_st validate_coordinates
    rw [goIdxSt_eq]
  · unfold validate_timestamps_st validate_timestamps
    rw [goIdxSt_eq]

/-- C7: when figure creation and route rendering succeed, a failing marker
or overlay step never fails the command — the pipeline still reaches export
and returns ok, with the corresponding warning recorded. -/
theorem convert_optional_feature_failure
    (addMarkers addOverlay : Except String Unit) (markers overlay : Bool)
    (files : List String) :
    ∃ warnings,
      convertModel (Except.ok ()) (Except.ok ()) addMarkers addOverlay
          markers overlay (Except.ok files)
        = Except.ok (warnings, files) ∧
      (markers = true → ∀ e, addMarkers = Except.error e →
        s!"Error adding markers: {e}" ∈ warnings) ∧
      (overlay = true → ∀ e, addOverlay = Except.error e →
        s!"Failed to add overlay: {e}" ∈ warnings) := by
  refine ⟨_, rfl, ?_, ?_⟩
  · intro hm e he
    subst hm
    rw [he]
    simp
  · intro ho e he
    subst ho
    rw [he]
    simp

/-- Witness for C7: both optional features fail, the command still exports
and both warnings are present. -/
theorem convert_optional_feature_failure_witness :
    ∃ warnings,
      convertModel (Except.ok ()) (Except.ok ())
          (Except.error ("marker boom")) (Except.error ("overlay boom"))
          true true (Except.ok ["out.png"])
        = Except.ok (warnings, ["out.png"]) ∧
      "Error adding markers: marker boom" ∈ warnings ∧
      "Failed to add overlay: overlay boom" ∈ warnings := by
  obtain ⟨w, h1, h2, h3⟩ := convert_optional_feature_failure
    (Except.error ("marker boom")) (Except.error ("overlay boom"))
    true true ["out.png"]
  exact ⟨w, h1, h2 rfl _ rfl, h3 rfl _ rfl⟩

/-- C10: a missing duration and a zero-length duration are both displayed
as the string Unknown. -/
theorem format_duration_unknown (d : Timedelta) (h : d.isZero = true) :
    format_duration none = "Unknown" ∧
      format_duration (some d) = "Unknown" := by
  refine ⟨rfl, ?_⟩
  show (if d.isZero then "Unknown" else _) = "Unknown"
  rw [if_pos h]

/-- Witness for C10 at the zero timedelta. -/
theorem format_duration_unknown_witness :
    format_duration none = "Unknown" ∧
      format_duration (some { days := 0, seconds := 0, microseconds := 0 })
        = "Unknown" :=
  format_duration_unknown { days := 0, seconds := 0, microseconds := 0 }
    (by decide)

/-- Witness for C4 at the concrete valid route. -/
theorem valid_route_three_empty_lists_witness :
    validate_segments routeGood = [] ∧ validate_coordinates routeGood = [] ∧
      validate_timestamps routeGood = [] :=
  valid_route_three_empty_lists routeGood (by
    unfold routeValid segTsValid
    decide)

theorem haversine_h_self (a : GeoPoint) : haversine_h a a = 0 := by
  unfold haversine_h
  simp

theorem distance_self (a : GeoPoint) : distance a a = 0 := by
  unfold distance
  rw [haversine_h_self, Real.sqrt_zero, Real.arcsin_zero, mul_zero]

theorem sin_sq_swap (x y : ℝ) :
    Real.sin ((x - y) / 2) ^ 2 = Real.sin ((y - x) / 2) ^ 2 := by
  rw [show (x - y) / 2 = -((y - x) / 2) by ring, Real.sin_neg]
  ring

theorem haversine_h_comm (a b : GeoPoint) :
    haversine_h a b = haversine_h b a := by
  unfold haversine_h
  rw [sin_sq_swap (deg2rad b.latitude) (deg2rad a.latitude),
    sin_sq_swap (deg2rad b.longitude) (deg2rad a.longitude)]
  ring

/-- C8: the distance from a valid point to itself is exactly zero, and the
distance between two valid points is symmetric. -/
theorem distance_self_and_symm (a b : GeoPoint)
    (_ha : a.valid) (_hb : b.valid) :
    distance a a = 0 ∧ distance a b = distance b a := by
  refine ⟨distance_self a, ?_⟩
  unfold distance
  rw [haversine_h_comm]

/-- Witness for C8 at two concrete valid points. -/
theorem distance_self_and_symm_witness :
    distance pointA pointA = 0 ∧
      distance pointA pointB = distance pointB pointA :=
  distance_self_and_symm pointA pointB
    (by unfold GeoPoint.valid pointA; decide)
    (by unfold GeoPoint.valid pointB; decide)

end RouteToArt
